import Mathlib

/-!
Shallow embedding of the SVG scene-flattening module
(examples/anyrender_objectmark/src/svg.rs) of the blitz repository.

Coordinates are modelled as rationals; the floating point arithmetic of the
source performs only additions and multiplications on the inputs of the
claims, which are exact. Rust panics (the unimplemented macro) are modelled
as the error branch of Except. Calls into the abstract paint sink are
modelled as a trace of draw commands.
-/

namespace Blitz

/-- A 2D point, kurbo Point with rational coordinates. -/
structure Point where
  x : ℚ
  y : ℚ
deriving DecidableEq, Repr

/-- A 2D affine transform, kurbo Affine with coefficients a b c d e f:
the map sends (x, y) to (a*x + c*y + e, b*x + d*y + f). -/
structure Affine where
  a : ℚ
  b : ℚ
  c : ℚ
  d : ℚ
  e : ℚ
  f : ℚ
deriving DecidableEq, Repr

/-- Affine IDENTITY constant of kurbo. -/
def Affine.identity : Affine := ⟨1, 0, 0, 1, 0, 0⟩

/-- Multiplication of affine transforms, kurbo Mul for Affine
(s * o acts as s after o). -/
def Affine.mul (s o : Affine) : Affine :=
  ⟨s.a * o.a + s.c * o.b,
   s.b * o.a + s.d * o.b,
   s.a * o.c + s.c * o.d,
   s.b * o.c + s.d * o.d,
   s.a * o.e + s.c * o.f + s.e,
   s.b * o.e + s.d * o.f + s.f⟩

/-- Action of an affine transform on a point. -/
def Affine.apply (t : Affine) (p : Point) : Point :=
  ⟨t.a * p.x + t.c * p.y + t.e, t.b * p.x + t.d * p.y + t.f⟩

/-- The usvg Transform record with fields sx kx ky sy tx ty. -/
structure Transform where
  sx : ℚ
  kx : ℚ
  ky : ℚ
  sy : ℚ
  tx : ℚ
  ty : ℚ
deriving DecidableEq, Repr

/-- The usvg identity transform. -/
def Transform.identity : Transform := ⟨1, 0, 0, 1, 0, 0⟩

/-- to_affine from svg.rs: Affine::new([sx, ky, kx, sy, tx, ty]). -/
def to_affine (ts : Transform) : Affine :=
  ⟨ts.sx, ts.ky, ts.kx, ts.sy, ts.tx, ts.ty⟩

/-- One segment of the usvg tiny_skia_path segment stream. -/
inductive PathSegment where
  | moveTo (p : Point)
  | lineTo (p : Point)
  | quadTo (p1 p2 : Point)
  | cubicTo (p1 p2 p3 : Point)
  | close
deriving DecidableEq, Repr

/-- One element of a kurbo BezPath. -/
inductive PathEl where
  | moveTo (p : Point)
  | lineTo (p : Point)
  | quadTo (p1 p2 : Point)
  | curveTo (p1 p2 p3 : Point)
  | closePath
deriving DecidableEq, Repr

/-- Loop body of to_bez_path from svg.rs: scans the segment stream carrying
the just_closed flag and the most_recent_initial point, appending kurbo
path elements to the accumulated output. -/
def to_bez_path_loop : List PathSegment → Bool → Point → List PathEl → List PathEl
  | [], _, _, acc => acc
  | PathSegment.moveTo p :: rest, justClosed, initPt, acc =>
    let acc := if justClosed then acc ++ [PathEl.moveTo initPt] else acc
    to_bez_path_loop rest false p (acc ++ [PathEl.moveTo p])
  | PathSegment.lineTo p :: rest, justClosed, initPt, acc =>
    let acc := if justClosed then acc ++ [PathEl.moveTo initPt] else acc
    to_bez_path_loop rest false initPt (acc ++ [PathEl.lineTo p])
  | PathSegment.quadTo p1 p2 :: rest, justClosed, initPt, acc =>
    let acc := if justClosed then acc ++ [PathEl.moveTo initPt] else acc
    to_bez_path_loop rest false initPt (acc ++ [PathEl.quadTo p1 p2])
  | PathSegment.cubicTo p1 p2 p3 :: rest, justClosed, initPt, acc =>
    let acc := if justClosed then acc ++ [PathEl.moveTo initPt] else acc
    to_bez_path_loop rest false initPt (acc ++ [PathEl.curveTo p1 p2 p3])
  | PathSegment.close :: rest, _, initPt, acc =>
    to_bez_path_loop rest true initPt (acc ++ [PathEl.closePath])

/-- to_bez_path from svg.rs: just_closed starts false, most_recent_initial
starts at (0, 0), the output path starts empty. -/
def to_bez_path (segments : List PathSegment) : List PathEl :=
  to_bez_path_loop segments false ⟨0, 0⟩ []

/-- Action of an affine transform on one kurbo path element. -/
def PathEl.applyAff (t : Affine) : PathEl → PathEl
  | PathEl.moveTo p => PathEl.moveTo (t.apply p)
  | PathEl.lineTo p => PathEl.lineTo (t.apply p)
  | PathEl.quadTo p1 p2 => PathEl.quadTo (t.apply p1) (t.apply p2)
  | PathEl.curveTo p1 p2 p3 => PathEl.curveTo (t.apply p1) (t.apply p2) (t.apply p3)
  | PathEl.closePath => PathEl.closePath

/-- BezPath.apply_affine of kurbo: transform every point of every element. -/
def apply_affine (t : Affine) (path : List PathEl) : List PathEl :=
  path.map (PathEl.applyAff t)

/-- A peniko Color, channels as stored by Color::from_rgba8. -/
structure Color where
  r : ℚ
  g : ℚ
  b : ℚ
  a : ℚ
deriving DecidableEq, Repr

/-- Color::from_rgba8 of peniko, channels kept as their 8-bit values. -/
def Color.from_rgba8 (r g b a : ℚ) : Color := ⟨r, g, b, a⟩

/-- The usvg flat color: red, green and blue 8-bit channels, no alpha. -/
structure UColor where
  red : ℚ
  green : ℚ
  blue : ℚ
deriving DecidableEq, Repr

/-- A usvg Paint reference: a flat color or one of the unsupported kinds. -/
inductive Paint where
  | color (c : UColor)
  | linearGradient
  | radialGradient
  | pattern
deriving DecidableEq, Repr

/-- The error raised by the unimplemented macro in svg.rs, modelled as an
Except error value. -/
inductive Err where
  | unimplemented
deriving DecidableEq, Repr

/-- to_brush from svg.rs: a flat color maps to a fully opaque peniko color
(alpha forced to u8::MAX = 255); every other paint kind panics. -/
def to_brush : Paint → Except Err Color
  | Paint.color c => Except.ok (Color.from_rgba8 c.red c.green c.blue 255)
  | _ => Except.error Err.unimplemented

/-- Kurbo stroke join styles. -/
inductive Join where
  | bevel
  | miter
  | round
deriving DecidableEq, Repr

/-- Kurbo stroke cap styles. -/
inductive Cap where
  | butt
  | square
  | round
deriving DecidableEq, Repr

/-- Kurbo Stroke style. -/
structure Stroke where
  width : ℚ
  join : Join
  miterLimit : ℚ
  startCap : Cap
  endCap : Cap
  dashPattern : List ℚ
  dashOffset : ℚ
deriving DecidableEq, Repr

/-- Stroke::new of kurbo: given width, round joins and caps, miter limit 4,
no dashes. -/
def Stroke.new (width : ℚ) : Stroke :=
  ⟨width, Join.round, 4, Cap.round, Cap.round, [], 0⟩

/-- Stroke default of kurbo: Stroke::new(1.0). -/
def Stroke.default : Stroke := Stroke.new 1

/-- The usvg Fill of a path node: a paint plus an opacity (the opacity is
never read by svg.rs). -/
structure UFill where
  paint : Paint
  opacity : ℚ
deriving DecidableEq, Repr

/-- The usvg Stroke of a path node: a paint, a width and an opacity (the
opacity is never read by svg.rs). -/
structure UStroke where
  paint : Paint
  width : ℚ
  opacity : ℚ
deriving DecidableEq, Repr

/-- A node of the usvg document tree, as consumed by Svg::walk: a group
with its transform and children, a path with segment data and optional
fill and stroke, or one of the unsupported node kinds. -/
inductive Node where
  | group (absTransform : Transform) (children : List Node)
  | path (data : List PathSegment) (fill : Option UFill) (stroke : Option UStroke)
  | image
  | text
deriving Repr

/-- Resolution of an optional fill, the expression
path.fill().map(s.paint()).map(to_brush) of svg.rs in the Except monad. -/
def resolve_fill : Option UFill → Except Err (Option Color)
  | none => Except.ok none
  | some fl => Except.map some (to_brush fl.paint)

/-- Resolution of an optional stroke paint, the expression
path.stroke().map(to_brush(s.paint())) of svg.rs in the Except monad. -/
def resolve_stroke : Option UStroke → Except Err (Option Color)
  | none => Except.ok none
  | some st => Except.map some (to_brush st.paint)

/-- The stroked field of svg.rs: Stroke::new of the declared width when a
stroke is present, the kurbo default stroke otherwise. -/
def stroke_style : Option UStroke → Stroke
  | none => Stroke.default
  | some st => Stroke.new st.width

/-- One drawable path record of the flattened scene, struct SvgPath of
svg.rs. -/
structure SvgPath where
  path : List PathEl
  fill : Option Color
  stroke : Option Color
  stroked : Stroke
deriving DecidableEq, Repr

/-- The flattened scene, struct Svg of svg.rs. -/
structure Svg where
  paths : List SvgPath
deriving DecidableEq, Repr

/-- The body of Svg::walk from svg.rs, over the child list of a group whose
composed transform is the first argument: groups recurse after composing
transform * to_affine(abs_transform), paths push one SvgPath record, image
and text nodes panic. The accumulator is the growing record vector self.0;
the result is the whole vector, or the panic as an Except error. -/
def walkNodes : Affine → List Node → List SvgPath → Except Err (List SvgPath)
  | _, [], acc => Except.ok acc
  | transform, Node.group gt children :: rest, acc =>
    match walkNodes (Affine.mul transform (to_affine gt)) children acc with
    | Except.error e => Except.error e
    | Except.ok acc2 => walkNodes transform rest acc2
  | transform, Node.path data fl st :: rest, acc =>
    match resolve_fill fl with
    | Except.error e => Except.error e
    | Except.ok fillColor =>
      match resolve_stroke st with
      | Except.error e => Except.error e
      | Except.ok strokeColor =>
        walkNodes transform rest
          (acc ++ [{ path := apply_affine transform (to_bez_path data),
                     fill := fillColor,
                     stroke := strokeColor,
                     stroked := stroke_style st }])
  | _, Node.image :: _, _ => Except.error Err.unimplemented
  | _, Node.text :: _, _ => Except.error Err.unimplemented
termination_by _ ns _ => sizeOf ns

/-- Svg::parse from svg.rs, after the external byte parser has produced the
document tree: walk the root group with the identity transform, starting
from an empty record vector. The root group carries its own transform,
composed by walk exactly like any nested group. -/
def Svg.parse (rootTransform : Transform) (rootChildren : List Node) : Except Err Svg :=
  Except.map Svg.mk
    (walkNodes (Affine.mul Affine.identity (to_affine rootTransform)) rootChildren [])

/-- Fill rule passed to the paint sink, peniko Fill. -/
inductive FillRule where
  | nonZero
  | evenOdd
deriving DecidableEq, Repr

/-- One request issued to the abstract paint sink (the PaintScene trait of
anyrender): a fill or a stroke, with the arguments of the corresponding
sink method, including the always-absent brush transform. -/
inductive DrawCmd where
  | fill (style : FillRule) (transform : Affine) (brush : Color)
      (brushTransform : Option Affine) (path : List PathEl)
  | stroke (style : Stroke) (transform : Affine) (brush : Color)
      (brushTransform : Option Affine) (path : List PathEl)
deriving DecidableEq, Repr

/-- Loop of Svg::fill from svg.rs: records with a fill color issue one fill
request, others are skipped. -/
def fill_loop (t : Affine) : List SvgPath → List DrawCmd
  | [] => []
  | p :: rest =>
    (match p.fill with
     | some brush => [DrawCmd.fill FillRule.nonZero t brush none p.path]
     | none => []) ++ fill_loop t rest

/-- Svg::fill from svg.rs: the trace of sink requests issued by the fill
draw method under the caller transform. -/
def Svg.fill (s : Svg) (t : Affine) : List DrawCmd :=
  fill_loop t s.paths

/-- Loop of Svg::stroke from svg.rs: the brush is stroke.or(fill); records
with neither color are skipped. -/
def stroke_loop (t : Affine) : List SvgPath → List DrawCmd
  | [] => []
  | p :: rest =>
    (match p.stroke.or p.fill with
     | some brush => [DrawCmd.stroke p.stroked t brush none p.path]
     | none => []) ++ stroke_loop t rest

/-- Svg::stroke from svg.rs: the trace of sink requests issued by the
stroke draw method under the caller transform. -/
def Svg.stroke (s : Svg) (t : Affine) : List DrawCmd :=
  stroke_loop t s.paths

/-- Loop of Svg::fill_stroke from svg.rs: per record, a fill request when
the fill color is present, then a stroke request when the stroke color is
present; no fallback from fill to stroke. -/
def fill_stroke_loop (t : Affine) : List SvgPath → List DrawCmd
  | [] => []
  | p :: rest =>
    (match p.fill with
     | some brush => [DrawCmd.fill FillRule.nonZero t brush none p.path]
     | none => []) ++
    (match p.stroke with
     | some brush => [DrawCmd.stroke p.stroked t brush none p.path]
     | none => []) ++ fill_stroke_loop t rest

/-- Svg::fill_stroke from svg.rs: the trace of sink requests issued by the
fill-then-stroke draw method under the caller transform. -/
def Svg.fill_stroke (s : Svg) (t : Affine) : List DrawCmd :=
  fill_stroke_loop t s.paths

/-- A paint reference is a flat color. -/
def paint_flat : Paint → Bool
  | Paint.color _ => true
  | _ => false

/-- An optional fill is supported: absent, or a flat-color paint. -/
def fill_supported : Option UFill → Bool
  | none => true
  | some fl => paint_flat fl.paint

/-- An optional stroke is supported: absent, or a flat-color paint. -/
def stroke_supported : Option UStroke → Bool
  | none => true
  | some st => paint_flat st.paint

/-- A forest of document nodes contains, anywhere in its tree, an image
node, a text node, or a paint reference that is not a flat color. -/
def has_unsupported : List Node → Bool
  | [] => false
  | Node.group _ children :: rest => has_unsupported children || has_unsupported rest
  | Node.path _ fl st :: rest =>
    !fill_supported fl || !stroke_supported st || has_unsupported rest
  | Node.image :: _ => true
  | Node.text :: _ => true
termination_by ns => sizeOf ns

/-- Number of path nodes of a forest of document nodes. -/
def count_paths : List Node → ℕ
  | [] => 0
  | Node.group _ children :: rest => count_paths children + count_paths rest
  | Node.path _ _ _ :: rest => 1 + count_paths rest
  | Node.image :: rest => count_paths rest
  | Node.text :: rest => count_paths rest
termination_by ns => sizeOf ns

/-- Color of a flat paint; junk on the unsupported kinds, which are
excluded by the hypotheses of the theorems using this definition. -/
def flat_color : Paint → Color
  | Paint.color c => Color.from_rgba8 c.red c.green c.blue 255
  | _ => Color.from_rgba8 0 0 0 255

/-- Modelled from the spec, section 4.3: the drawable path record built
from one path node under a composed transform. -/
def spec_record (t : Affine) (data : List PathSegment)
    (fl : Option UFill) (st : Option UStroke) : SvgPath :=
  { path := apply_affine t (to_bez_path data),
    fill := fl.map (fun x => flat_color x.paint),
    stroke := st.map (fun x => flat_color x.paint),
    stroked := stroke_style st }

/-- Modelled from the spec, sections 3 and 4.3: the pre-order depth-first
collection of one drawable path record per path node, composing the parent
cumulative transform with each group transform on the way down. -/
def spec_records : Affine → List Node → List SvgPath
  | _, [] => []
  | t, Node.group gt children :: rest =>
    spec_records (Affine.mul t (to_affine gt)) children ++ spec_records t rest
  | t, Node.path data fl st :: rest => spec_record t data fl st :: spec_records t rest
  | t, Node.image :: rest => spec_records t rest
  | t, Node.text :: rest => spec_records t rest
termination_by _ ns => sizeOf ns

/-- Document of the composed-transform scenario: a path node with a local
point at the origin, nested inside two groups translating by (10, 0) and
(0, 10), under an identity root group. -/
def doc_c1 : List Node :=
  [Node.group ⟨1, 0, 0, 1, 10, 0⟩
    [Node.group ⟨1, 0, 0, 1, 0, 10⟩
      [Node.path [PathSegment.moveTo ⟨0, 0⟩] (some ⟨Paint.color ⟨0, 0, 0⟩, 1⟩) none]]]

/-- Document made of a flat-color path followed by an image node. -/
def doc_c3 : List Node :=
  [Node.path [PathSegment.moveTo ⟨1, 2⟩] (some ⟨Paint.color ⟨7, 8, 9⟩, 1⟩) none,
   Node.image]

/-- Supported document: a group holding two flat-color path nodes. -/
def doc_c4 : List Node :=
  [Node.group ⟨1, 0, 0, 1, 3, 0⟩
    [Node.path [PathSegment.moveTo ⟨0, 0⟩] (some ⟨Paint.color ⟨1, 2, 3⟩, 1⟩) none,
     Node.path [PathSegment.moveTo ⟨5, 5⟩] none (some ⟨Paint.color ⟨4, 5, 6⟩, 2, 1⟩)]]

/-- Every value of the panic error type is the unimplemented error. -/
theorem Err.eq_unimplemented (e : Err) : e = Err.unimplemented := by
  cases e
  rfl

/-- A supported optional fill resolves to its mapped flat color. -/
theorem resolve_fill_of_supported :
    ∀ fl, fill_supported fl = true →
      resolve_fill fl = Except.ok (Option.map (fun x => flat_color x.paint) fl)
  | none, _ => rfl
  | some f, h => by
    simp only [fill_supported] at h
    cases hp : f.paint with
    | color c => simp [resolve_fill, hp, to_brush, flat_color, Except.map]
    | linearGradient => rw [hp] at h; simp [paint_flat] at h
    | radialGradient => rw [hp] at h; simp [paint_flat] at h
    | pattern => rw [hp] at h; simp [paint_flat] at h

/-- An unsupported optional fill resolves to the unimplemented error. -/
theorem resolve_fill_of_unsupported :
    ∀ fl, fill_supported fl = false →
      resolve_fill fl = Except.error Err.unimplemented
  | none, h => by simp [fill_supported] at h
  | some f, h => by
    simp only [fill_supported] at h
    cases hp : f.paint with
    | color c => rw [hp] at h; simp [paint_flat] at h
    | linearGradient => simp [resolve_fill, hp, to_brush, Except.map]
    | radialGradient => simp [resolve_fill, hp, to_brush, Except.map]
    | pattern => simp [resolve_fill, hp, to_brush, Except.map]

/-- A supported optional stroke paint resolves to its mapped flat color. -/
theorem resolve_stroke_of_supported :
    ∀ st, stroke_supported st = true →
      resolve_stroke st = Except.ok (Option.map (fun x => flat_color x.paint) st)
  | none, _ => rfl
  | some s, h => by
    simp only [stroke_supported] at h
    cases hp : s.paint with
    | color c => simp [resolve_stroke, hp, to_brush, flat_color, Except.map]
    | linearGradient => rw [hp] at h; simp [paint_flat] at h
    | radialGradient => rw [hp] at h; simp [paint_flat] at h
    | pattern => rw [hp] at h; simp [paint_flat] at h

/-- An unsupported optional stroke paint resolves to the unimplemented
error. -/
theorem resolve_stroke_of_unsupported :
    ∀ st, stroke_supported st = false →
      resolve_stroke st = Except.error Err.unimplemented
  | none, h => by simp [stroke_supported] at h
  | some s, h => by
    simp only [stroke_supported] at h
    cases hp : s.paint with
    | color c => rw [hp] at h; simp [paint_flat] at h
    | linearGradient => simp [resolve_stroke, hp, to_brush, Except.map]
    | radialGradient => simp [resolve_stroke, hp, to_brush, Except.map]
    | pattern => simp [resolve_stroke, hp, to_brush, Except.map]

/-- The fill draw loop distributes over record-list concatenation. -/
theorem fill_loop_append (t : Affine) :
    ∀ l1 l2, fill_loop t (l1 ++ l2) = fill_loop t l1 ++ fill_loop t l2
  | [], _ => rfl
  | p :: rest, l2 => by
    simp [fill_loop, fill_loop_append t rest l2]

/-- The stroke draw loop distributes over record-list concatenation. -/
theorem stroke_loop_append (t : Affine) :
    ∀ l1 l2, stroke_loop t (l1 ++ l2) = stroke_loop t l1 ++ stroke_loop t l2
  | [], _ => rfl
  | p :: rest, l2 => by
    simp [stroke_loop, stroke_loop_append t rest l2]

/-- The fill-then-stroke draw loop distributes over record-list
concatenation. -/
theorem fill_stroke_loop_append (t : Affine) :
    ∀ l1 l2, fill_stroke_loop t (l1 ++ l2) = fill_stroke_loop t l1 ++ fill_stroke_loop t l2
  | [], _ => rfl
  | p :: rest, l2 => by
    simp [fill_stroke_loop, fill_stroke_loop_append t rest l2]

/-- The spec-side pre-order collection has one record per path node. -/
theorem spec_records_length (t : Affine) (ns : List Node) :
    (spec_records t ns).length = count_paths ns := by
  induction t, ns using spec_records.induct with
  | case1 t => simp [spec_records, count_paths]
  | case2 t gt children rest ih1 ih2 =>
    simp [spec_records, count_paths, ih1, ih2]
  | case3 t data fl st rest ih =>
    simp [spec_records, count_paths, ih]
    omega
  | case4 t rest ih => simp [spec_records, count_paths, ih]
  | case5 t rest ih => simp [spec_records, count_paths, ih]

/-- A forest with an unsupported node makes the walk fail with the
unimplemented error, whatever the transform and the accumulated records. -/
theorem walk_unsupported (t : Affine) (ns : List Node) (acc : List SvgPath)
    (h : has_unsupported ns = true) :
    walkNodes t ns acc = Except.error Err.unimplemented := by
  induction t, ns, acc using walkNodes.induct with
  | case1 t acc => simp [has_unsupported] at h
  | case2 t gt children rest acc e hw ih =>
    rw [Err.eq_unimplemented e] at hw
    simp only [walkNodes, hw]
  | case3 t gt children rest acc acc2 hw ih1 ih2 =>
    cases hch : has_unsupported children with
    | true =>
      have hc := ih1 hch
      rw [hw] at hc
      exact Except.noConfusion hc
    | false =>
      have hrest : has_unsupported rest = true := by
        simp only [has_unsupported, hch, Bool.false_or] at h
        exact h
      simp only [walkNodes, hw]
      exact ih2 hrest
  | case4 t data fl st rest acc e hf =>
    rw [Err.eq_unimplemented e] at hf
    simp only [walkNodes, hf]
  | case5 t data fl st rest acc fc hf e hs =>
    rw [Err.eq_unimplemented e] at hs
    simp only [walkNodes, hf, hs]
  | case6 t data fl st rest acc fc hf sc hs ih =>
    cases hfl : fill_supported fl with
    | false =>
      rw [resolve_fill_of_unsupported fl hfl] at hf
      exact Except.noConfusion hf
    | true =>
      cases hst : stroke_supported st with
      | false =>
        rw [resolve_stroke_of_unsupported st hst] at hs
        exact Except.noConfusion hs
      | true =>
        have hrest : has_unsupported rest = true := by
          simp only [has_unsupported, hfl, hst, Bool.not_true, Bool.false_or] at h
          exact h
        simp only [walkNodes, hf, hs]
        exact ih hrest
  | case7 t tail acc => simp [walkNodes]
  | case8 t tail acc => simp [walkNodes]

/-- A fully supported forest makes the walk succeed, appending exactly the
spec-side pre-order record collection to the accumulator. -/
theorem walk_supported (t : Affine) (ns : List Node) (acc : List SvgPath)
    (h : has_unsupported ns = false) :
    walkNodes t ns acc = Except.ok (acc ++ spec_records t ns) := by
  induction t, ns, acc using walkNodes.induct with
  | case1 t acc => simp [walkNodes, spec_records]
  | case2 t gt children rest acc e hw ih =>
    simp only [has_unsupported, Bool.or_eq_false_iff] at h
    have hc := ih h.1
    rw [hw] at hc
    exact Except.noConfusion hc
  | case3 t gt children rest acc acc2 hw ih1 ih2 =>
    simp only [has_unsupported, Bool.or_eq_false_iff] at h
    have hc := ih1 h.1
    rw [hw] at hc
    have hacc2 : acc2 = acc ++ spec_records (Affine.mul t (to_affine gt)) children :=
      Except.ok.inj hc
    simp only [walkNodes, hw]
    rw [ih2 h.2, hacc2, spec_records]
    simp [List.append_assoc]
  | case4 t data fl st rest acc e hf =>
    simp only [has_unsupported, Bool.or_eq_false_iff, Bool.not_eq_false'] at h
    rw [resolve_fill_of_supported fl h.1.1] at hf
    exact Except.noConfusion hf
  | case5 t data fl st rest acc fc hf e hs =>
    simp only [has_unsupported, Bool.or_eq_false_iff, Bool.not_eq_false'] at h
    rw [resolve_stroke_of_supported st h.1.2] at hs
    exact Except.noConfusion hs
  | case6 t data fl st rest acc fc hf sc hs ih =>
    simp only [has_unsupported, Bool.or_eq_false_iff, Bool.not_eq_false'] at h
    obtain ⟨⟨h1, h2⟩, h3⟩ := h
    rw [resolve_fill_of_supported fl h1] at hf
    rw [resolve_stroke_of_supported st h2] at hs
    have hfc : fc = Option.map (fun x => flat_color x.paint) fl := (Except.ok.inj hf).symm
    have hsc : sc = Option.map (fun x => flat_color x.paint) st := (Except.ok.inj hs).symm
    subst hfc
    subst hsc
    simp only [walkNodes, resolve_fill_of_supported fl h1, resolve_stroke_of_supported st h2]
    rw [ih h3, spec_records, spec_record]
    simp [List.append_assoc]
  | case7 t tail acc => simp [has_unsupported] at h
  | case8 t tail acc => simp [has_unsupported] at h

/-- C1: a path nested inside two groups, translating by (10, 0) and
(0, 10) respectively, has its local point (0, 0) mapped by flattening to
the outline point (10, 10); drawing the flattened scene with the identity
caller transform hands that outline to the sink. -/
theorem c1_composed_transform :
    Svg.parse Transform.identity doc_c1 =
      Except.ok (Svg.mk [{ path := [PathEl.moveTo ⟨10, 10⟩],
                           fill := some (Color.from_rgba8 0 0 0 255),
                           stroke := none,
                           stroked := Stroke.default }]) ∧
    Svg.fill (Svg.mk [{ path := [PathEl.moveTo ⟨10, 10⟩],
                        fill := some (Color.from_rgba8 0 0 0 255),
                        stroke := none,
                        stroked := Stroke.default }]) Affine.identity =
      [DrawCmd.fill FillRule.nonZero Affine.identity (Color.from_rgba8 0 0 0 255) none
        [PathEl.moveTo ⟨10, 10⟩]] := by
  constructor
  · simp [Svg.parse, doc_c1, walkNodes]
    norm_num [Affine.mul, Affine.identity, to_affine, Transform.identity, resolve_fill,
      to_brush, resolve_stroke, stroke_style, apply_affine, to_bez_path, to_bez_path_loop,
      PathEl.applyAff, Affine.apply, Color.from_rgba8, Stroke.default, Stroke.new, Except.map]
  · rfl

/-- C2: when a line, quadratic or cubic segment immediately follows a
close, the reconstructor first emits an implicit move to the most recent
initial point; the stream MoveTo(0,0), LineTo(10,0), Close, LineTo(20,0)
reconstructs to two subpaths, the second starting at (0, 0). -/
theorem c2_implicit_reopen :
    (∀ (rest : List PathSegment) (initPt : Point) (acc : List PathEl) (p : Point),
      to_bez_path_loop (PathSegment.lineTo p :: rest) true initPt acc =
        to_bez_path_loop rest false initPt (acc ++ [PathEl.moveTo initPt] ++ [PathEl.lineTo p])) ∧
    (∀ (rest : List PathSegment) (initPt : Point) (acc : List PathEl) (p1 p2 : Point),
      to_bez_path_loop (PathSegment.quadTo p1 p2 :: rest) true initPt acc =
        to_bez_path_loop rest false initPt (acc ++ [PathEl.moveTo initPt] ++ [PathEl.quadTo p1 p2])) ∧
    (∀ (rest : List PathSegment) (initPt : Point) (acc : List PathEl) (p1 p2 p3 : Point),
      to_bez_path_loop (PathSegment.cubicTo p1 p2 p3 :: rest) true initPt acc =
        to_bez_path_loop rest false initPt (acc ++ [PathEl.moveTo initPt] ++ [PathEl.curveTo p1 p2 p3])) ∧
    to_bez_path [PathSegment.moveTo ⟨0, 0⟩, PathSegment.lineTo ⟨10, 0⟩,
        PathSegment.close, PathSegment.lineTo ⟨20, 0⟩] =
      [PathEl.moveTo ⟨0, 0⟩, PathEl.lineTo ⟨10, 0⟩, PathEl.closePath,
       PathEl.moveTo ⟨0, 0⟩, PathEl.lineTo ⟨20, 0⟩] :=
  ⟨fun _ _ _ _ => rfl, fun _ _ _ _ _ => rfl, fun _ _ _ _ _ _ => rfl, rfl⟩

/-- C3: a document containing anywhere an image node, a text node, or a
non-flat-color paint reference makes the whole flatten fail with the
unimplemented error, producing no record list at all. -/
theorem c3_unsupported_aborts :
    (∀ (t : Affine) (ns : List Node) (acc : List SvgPath),
      has_unsupported ns = true →
        walkNodes t ns acc = Except.error Err.unimplemented) ∧
    (∀ (rt : Transform) (ch : List Node),
      has_unsupported ch = true →
        Svg.parse rt ch = Except.error Err.unimplemented) := by
  refine ⟨walk_unsupported, fun rt ch h => ?_⟩
  unfold Svg.parse
  rw [walk_unsupported _ _ _ h]
  rfl

/-- Witness for C3: a concrete document whose second node is an image
fails as a whole, although its first node is a supported flat-color path. -/
theorem c3_unsupported_aborts_witness :
    Svg.parse Transform.identity doc_c3 = Except.error Err.unimplemented :=
  c3_unsupported_aborts.2 Transform.identity doc_c3
    (by simp [doc_c3, has_unsupported, fill_supported, stroke_supported, paint_flat])

/-- C4: a document of groups and flat-color paths flattens successfully to
exactly the pre-order depth-first record collection, one record per path
node; the record count is the path-node count, and every draw method
visits the records in list order, as the draw traces decompose over
record-list concatenation. -/
theorem c4_supported_flatten :
    (∀ (t : Affine) (ns : List Node) (acc : List SvgPath),
      has_unsupported ns = false →
        walkNodes t ns acc = Except.ok (acc ++ spec_records t ns)) ∧
    (∀ (rt : Transform) (ch : List Node),
      has_unsupported ch = false →
        Svg.parse rt ch =
          Except.ok (Svg.mk (spec_records (Affine.mul Affine.identity (to_affine rt)) ch))) ∧
    (∀ (t : Affine) (ns : List Node), (spec_records t ns).length = count_paths ns) ∧
    (∀ (t : Affine) (l1 l2 : List SvgPath),
      fill_loop t (l1 ++ l2) = fill_loop t l1 ++ fill_loop t l2 ∧
      stroke_loop t (l1 ++ l2) = stroke_loop t l1 ++ stroke_loop t l2 ∧
      fill_stroke_loop t (l1 ++ l2) = fill_stroke_loop t l1 ++ fill_stroke_loop t l2) := by
  refine ⟨walk_supported, fun rt ch h => ?_, spec_records_length,
    fun t l1 l2 => ⟨fill_loop_append t l1 l2, stroke_loop_append t l1 l2,
      fill_stroke_loop_append t l1 l2⟩⟩
  unfold Svg.parse
  rw [walk_supported _ _ _ h]
  rfl

/-- Witness for C4: a concrete group with two flat-color paths flattens to
the spec-side record collection. -/
theorem c4_supported_flatten_witness :
    Svg.parse Transform.identity doc_c4 =
      Except.ok (Svg.mk (spec_records
        (Affine.mul Affine.identity (to_affine Transform.identity)) doc_c4)) :=
  c4_supported_flatten.2.1 Transform.identity doc_c4
    (by simp [doc_c4, has_unsupported, fill_supported, stroke_supported, paint_flat])

/-- C5: a record with a fill color and no stroke color issues exactly one
fill request and no stroke request in fill_stroke mode, while stroke mode
strokes it with the fill color as brush. -/
theorem c5_fill_stroke_asymmetry (pre post : List SvgPath) (pth : List PathEl)
    (sk : Stroke) (c : Color) (t : Affine) :
    Svg.fill_stroke ⟨pre ++ { path := pth, fill := some c, stroke := none, stroked := sk } :: post⟩ t =
      Svg.fill_stroke ⟨pre⟩ t ++ [DrawCmd.fill FillRule.nonZero t c none pth] ++
        Svg.fill_stroke ⟨post⟩ t ∧
    Svg.stroke ⟨pre ++ { path := pth, fill := some c, stroke := none, stroked := sk } :: post⟩ t =
      Svg.stroke ⟨pre⟩ t ++ [DrawCmd.stroke sk t c none pth] ++ Svg.stroke ⟨post⟩ t := by
  constructor
  · show fill_stroke_loop t (pre ++ _ :: post) = _
    rw [show ({ path := pth, fill := some c, stroke := none, stroked := sk } : SvgPath) :: post =
      [{ path := pth, fill := some c, stroke := none, stroked := sk }] ++ post from rfl,
      fill_stroke_loop_append, fill_stroke_loop_append]
    simp [fill_stroke_loop, Svg.fill_stroke]
  · show stroke_loop t (pre ++ _ :: post) = _
    rw [show ({ path := pth, fill := some c, stroke := none, stroked := sk } : SvgPath) :: post =
      [{ path := pth, fill := some c, stroke := none, stroked := sk }] ++ post from rfl,
      stroke_loop_append, stroke_loop_append]
    simp [stroke_loop, Svg.stroke, Option.or]

/-- C6: the stroke draw method picks the stroke color when present, falls
back to the fill color otherwise, and skips the record entirely when both
are absent; when a brush exists it issues exactly one stroke request with
the record stroke style, the caller transform and that color. -/
theorem c6_stroke_brush_choice (pre post : List SvgPath) (pth : List PathEl)
    (sk : Stroke) (t : Affine) :
    (∀ (c : Color) (ofl : Option Color),
      Svg.stroke ⟨pre ++ { path := pth, fill := ofl, stroke := some c, stroked := sk } :: post⟩ t =
        Svg.stroke ⟨pre⟩ t ++ [DrawCmd.stroke sk t c none pth] ++ Svg.stroke ⟨post⟩ t) ∧
    (∀ c : Color,
      Svg.stroke ⟨pre ++ { path := pth, fill := some c, stroke := none, stroked := sk } :: post⟩ t =
        Svg.stroke ⟨pre⟩ t ++ [DrawCmd.stroke sk t c none pth] ++ Svg.stroke ⟨post⟩ t) ∧
    Svg.stroke ⟨pre ++ { path := pth, fill := none, stroke := none, stroked := sk } :: post⟩ t =
      Svg.stroke ⟨pre⟩ t ++ Svg.stroke ⟨post⟩ t := by
  refine ⟨fun c ofl => ?_, fun c => ?_, ?_⟩ <;>
  · show stroke_loop t (pre ++ _ :: post) = _
    rw [show ∀ r : SvgPath, r :: post = [r] ++ post from fun _ => rfl,
      stroke_loop_append, stroke_loop_append]
    simp [stroke_loop, Svg.stroke, Option.or]

/-- C7: the paint resolver maps a flat color to the same red, green and
blue channels with a fully opaque alpha, maps an absent paint to no color,
and ignores the declared opacity of the fill or stroke it came from. -/
theorem c7_paint_resolver :
    (∀ c : UColor,
      to_brush (Paint.color c) = Except.ok { r := c.red, g := c.green, b := c.blue, a := 255 }) ∧
    resolve_fill none = Except.ok none ∧
    resolve_stroke none = Except.ok none ∧
    (∀ (p : Paint) (o1 o2 : ℚ), resolve_fill (some ⟨p, o1⟩) = resolve_fill (some ⟨p, o2⟩)) ∧
    (∀ (p : Paint) (w o1 o2 : ℚ),
      resolve_stroke (some ⟨p, w, o1⟩) = resolve_stroke (some ⟨p, w, o2⟩)) :=
  ⟨fun _ => rfl, rfl, rfl, fun _ _ _ => rfl, fun _ _ _ _ => rfl⟩

/-- C8: flattening is deterministic: parsing equal documents yields equal
flattened scenes, with pairwise identical record counts, outlines, fill
colors, stroke colors and stroke styles. -/
theorem c8_parse_deterministic (rt1 rt2 : Transform) (ch1 ch2 : List Node)
    (h1 : rt1 = rt2) (h2 : ch1 = ch2) :
    Svg.parse rt1 ch1 = Svg.parse rt2 ch2 ∧
    (∀ s1 s2, Svg.parse rt1 ch1 = Except.ok s1 → Svg.parse rt2 ch2 = Except.ok s2 →
      s1.paths.length = s2.paths.length ∧
      s1.paths.map SvgPath.path = s2.paths.map SvgPath.path ∧
      s1.paths.map SvgPath.fill = s2.paths.map SvgPath.fill ∧
      s1.paths.map SvgPath.stroke = s2.paths.map SvgPath.stroke ∧
      s1.paths.map SvgPath.stroked = s2.paths.map SvgPath.stroked) := by
  subst h1
  subst h2
  refine ⟨rfl, fun s1 s2 e1 e2 => ?_⟩
  rw [e1] at e2
  have hs : s1 = s2 := Except.ok.inj e2
  subst hs
  exact ⟨rfl, rfl, rfl, rfl, rfl⟩

/-- Witness for C8: determinism applied to the concrete nested document. -/
theorem c8_parse_deterministic_witness :
    Svg.parse Transform.identity doc_c1 = Svg.parse Transform.identity doc_c1 :=
  (c8_parse_deterministic Transform.identity Transform.identity doc_c1 doc_c1 rfl rfl).1

/-- C9: an explicit move immediately after a close emits two consecutive
moves, first to the previous initial point and then to the new point; a
concrete stream shows the degenerate subpath at the old anchor. -/
theorem c9_double_move_after_close :
    (∀ (rest : List PathSegment) (initPt : Point) (acc : List PathEl) (p : Point),
      to_bez_path_loop (PathSegment.moveTo p :: rest) true initPt acc =
        to_bez_path_loop rest false p (acc ++ [PathEl.moveTo initPt] ++ [PathEl.moveTo p])) ∧
    to_bez_path [PathSegment.moveTo ⟨0, 0⟩, PathSegment.lineTo ⟨1, 0⟩, PathSegment.close,
        PathSegment.moveTo ⟨5, 5⟩, PathSegment.lineTo ⟨6, 5⟩] =
      [PathEl.moveTo ⟨0, 0⟩, PathEl.lineTo ⟨1, 0⟩, PathEl.closePath,
       PathEl.moveTo ⟨0, 0⟩, PathEl.moveTo ⟨5, 5⟩, PathEl.lineTo ⟨6, 5⟩] :=
  ⟨fun _ _ _ _ => rfl, rfl⟩

/-- C10: a path node without a stroke paint yields a record whose stroke
style is the kurbo default (width 1, round joins and caps), and the stroke
draw mode strokes such a record carrying a fill color with that default
style and the fill color as brush. -/
theorem c10_default_stroke_style :
    (∀ (t : Affine) (acc : List SvgPath) (segs : List PathSegment) (c : UColor) (op : ℚ),
      walkNodes t [Node.path segs (some ⟨Paint.color c, op⟩) none] acc =
        Except.ok (acc ++ [{ path := apply_affine t (to_bez_path segs),
                             fill := some (Color.from_rgba8 c.red c.green c.blue 255),
                             stroke := none,
                             stroked := Stroke.default }])) ∧
    (∀ (t : Affine) (acc : List SvgPath) (segs : List PathSegment),
      walkNodes t [Node.path segs none none] acc =
        Except.ok (acc ++ [{ path := apply_affine t (to_bez_path segs),
                             fill := none,
                             stroke := none,
                             stroked := Stroke.default }])) ∧
    (Stroke.default.width = 1 ∧ Stroke.default.join = Join.round ∧
     Stroke.default.startCap = Cap.round ∧ Stroke.default.endCap = Cap.round) ∧
    (∀ (pth : List PathEl) (c : Color) (t : Affine),
      Svg.stroke ⟨[{ path := pth, fill := some c, stroke := none, stroked := Stroke.default }]⟩ t =
        [DrawCmd.stroke Stroke.default t c none pth]) := by
  refine ⟨fun t acc segs c op => ?_, fun t acc segs => ?_, ⟨rfl, rfl, rfl, rfl⟩,
    fun pth c t => rfl⟩
  · simp [walkNodes, resolve_fill, resolve_stroke, to_brush, Except.map, stroke_style,
      Color.from_rgba8]
  · simp [walkNodes, resolve_fill, resolve_stroke, to_brush, Except.map, stroke_style]

end Blitz
